import Mathlib

/-
Shallow embedding of the SQL query generator (sql_query_generator.py).

The generator keeps three per-instance dictionaries
  - `_queries`   : logical table name -> cached complete SQL text
  - `_aliases`   : logical table name -> {output alias -> physical expression}
  - `_join_info` : logical table name -> {join alias -> JOIN clause text}
and works over a mapping table whose rows carry
  (logical table, logical field, type tag, physical table, physical column,
   external physical table, raw join-relation text).

Python dictionaries are modelled as insertion-ordered association lists
(updating an existing key keeps its position, a new key is appended),
`None`/`NaN` cells as `Option`, and raised exceptions as `Except PyErr`.
-/

set_option maxRecDepth 4000

/-- Exceptions the modelled Python code can raise. -/
inductive PyErr where
  | keyError
  | valueError
  | indexError
deriving DecidableEq, Repr

/-- One row of the mapping table (columns of the spreadsheet, in source order:
"Имя таблицы 1С", "Имя поля 1С", "ТипПоля1С", "SQL таблица", "SQL Имя поля",
"SQLВнешняяТаблица", "Связи"). Absent cells (NaN) are `none`. -/
structure MappingRow where
  table1C : String
  field1C : String
  fieldType : Option String
  sqlTable : String
  sqlField : String
  sqlExternalTable : String
  relation : Option String
deriving DecidableEq, Repr

/-- A Python `dict` with string keys/values: insertion-ordered association list. -/
abbrev SDict := List (String × String)

/-- A dict of dicts, like `self._aliases` and `self._join_info`. -/
abbrev NDict := List (String × SDict)

/-- Dictionary lookup (`d[k]` / `d.get(k)`): first matching key. -/
def findA {α : Type} : List (String × α) → String → Option α
  | [], _ => none
  | (k1, v1) :: rest, k => if k1 = k then some v1 else findA rest k

/-- Dictionary update `d[k] = v`: an existing key keeps its position,
a new key is appended at the end (CPython dict semantics). -/
def insA : SDict → String → String → SDict
  | [], k, v => [(k, v)]
  | (k1, v1) :: rest, k, v =>
    if k1 = k then (k1, v) :: rest else (k1, v1) :: insA rest k v

/-- Nested update `d[t][k] = v`, creating `d[t]` as `{k: v}` when `t` is absent
(the behaviour of `_add_join_info`; `generate_query` initialises the outer key
before any inner write, so the creating branch matches the source there too). -/
def ndSet : NDict → String → String → String → NDict
  | [], t, k, v => [(t, [(k, v)])]
  | (t1, d1) :: rest, t, k, v =>
    if t1 = t then (t1, insA d1 k v) :: rest else (t1, d1) :: ndSet rest t k v

/-- The generator's mutable per-instance state. -/
structure GenState where
  queries : SDict
  aliases : NDict
  joinInfo : NDict
deriving DecidableEq, Repr

/-- State of a freshly constructed generator. -/
def initState : GenState := ⟨[], [], []⟩

/- ---------------- Python string primitives (on `List Char`) ---------------- -/

/-- Whitespace for Python `str.strip()` (the characters that occur in practice). -/
def pyIsSpace (c : Char) : Bool := c == ' ' || c == '\t' || c == '\n' || c == '\r'

/-- Strip characters satisfying `p` from both ends. -/
def stripEndsL (p : Char → Bool) (l : List Char) : List Char :=
  ((l.dropWhile p).reverse.dropWhile p).reverse

/-- Python `s.strip()`. -/
def pyStrip (s : String) : String := ⟨stripEndsL pyIsSpace s.data⟩

/-- Python `s.strip(cs)` for a character set `cs`. -/
def pyStripCS (s : String) (cs : List Char) : String :=
  ⟨stripEndsL (fun c => cs.contains c) s.data⟩

/-- Python `s.rstrip(cs)` for a character set `cs`. -/
def pyRstripCS (s : String) (cs : List Char) : String :=
  ⟨(s.data.reverse.dropWhile (fun c => cs.contains c)).reverse⟩

/-- Python `s.upper()` (ASCII idealisation). -/
def pyUpper (s : String) : String := ⟨s.data.map Char.toUpper⟩

/-- Python `s.startswith(p)`. -/
def pyStartsWith (s p : String) : Bool := p.data.isPrefixOf s.data

/-- Python `s.endswith(p)`. -/
def pyEndsWith (s p : String) : Bool := p.data.isSuffixOf s.data

/-- Split off the text before and after the first occurrence of `pat`
(`none` when `pat` does not occur). -/
def splitOnceAux (pat : List Char) : List Char → Option (List Char × List Char)
  | [] => none
  | c :: rest =>
    if pat.isPrefixOf (c :: rest) then some ([], (c :: rest).drop pat.length)
    else
      match splitOnceAux pat rest with
      | none => none
      | some (pre, post) => some (c :: pre, post)

/-- Python `pat in s` (for the non-empty patterns used by the source). -/
def pyContains (s pat : String) : Bool := (splitOnceAux pat.data s.data).isSome

/-- Python `s.split(pat, 1)`: one or two pieces. -/
def pySplit1 (s pat : String) : List String :=
  match splitOnceAux pat.data s.data with
  | none => [s]
  | some (pre, post) => [⟨pre⟩, ⟨post⟩]

/-- Split on a single character, Python `s.split(c)` (always non-empty result). -/
def splitCharL (sep : Char) : List Char → List (List Char)
  | [] => [[]]
  | c :: rest =>
    if c = sep then [] :: splitCharL sep rest
    else
      match splitCharL sep rest with
      | [] => [[c]]
      | h :: t => (c :: h) :: t

/-- Python `query.split('\n')`. -/
def pyLines (s : String) : List String := (splitCharL '\n' s.data).map (fun l => ⟨l⟩)

/-- Python `sep.join(parts)`. -/
def joinSep (sep : String) : List String → String
  | [] => ""
  | [x] => x
  | x :: y :: rest => x ++ sep ++ joinSep sep (y :: rest)

/-- Fuel-driven core of Python `s.replace(pat, rep)` (all occurrences,
left to right, non-overlapping; the fuel `s.length` always suffices for the
non-empty patterns the source builds). -/
def replaceFuel (pat rep : List Char) : Nat → List Char → List Char
  | _, [] => []
  | 0, l => l
  | fuel + 1, c :: rest =>
    if pat.isPrefixOf (c :: rest) then
      rep ++ replaceFuel pat rep fuel ((c :: rest).drop pat.length)
    else c :: replaceFuel pat rep fuel rest

/-- Python `s.replace(pat, rep)`. -/
def pyReplace (s pat rep : String) : String :=
  ⟨replaceFuel pat.data rep.data s.data.length s.data⟩

/-- Python `s[1:-1]`. -/
def pySlice1m1 (s : String) : String := ⟨(s.data.drop 1).dropLast⟩

/-- The apostrophe character. -/
def squoteChar : Char := Char.ofNat 39

/-- The two quote characters stripped from alias tokens (`'"\''`). -/
def quoteChars : List Char := ['"', squoteChar]

/- ---------------- field classification ---------------- -/

/-- Leading dotted segment `s.split('.')[0]` of a type tag. -/
def headSegment (s : String) : String := ⟨(splitCharL '.' s.data).headD []⟩

/-- `_get_field_type_info`: category of a field and the descriptive sub-column
suffix, as a pure function of the (possibly absent) type tag. -/
def get_field_type_info (fieldType : Option String) : String × String :=
  match fieldType with
  | none => ("regular", "")
  | some ft =>
    let cat := headSegment ft
    if cat = ("Справочник") then ("reference", "_Description")
    else if cat = ("Документ") then ("document", "_Number")
    else if cat = ("Перечисление") then ("enum", "_EnumOrder")
    else ("reference", "_Description")

/- ---------------- state helpers ---------------- -/

/-- `self._aliases[t][k] = v` (outer key always initialised by `generate_query`). -/
def setAlias (s : GenState) (t k v : String) : GenState :=
  { s with aliases := ndSet s.aliases t k v }

/-- `_add_join_info`: ensure `self._join_info[t]` exists, then set `[al] = cond`. -/
def add_join_info (s : GenState) (t al cond : String) : GenState :=
  { s with joinInfo := ndSet s.joinInfo t al cond }

/-- Lines 137-141 of the source: create empty `_aliases[t]` / `_join_info[t]`
entries when absent. -/
def initTables (s : GenState) (t : String) : GenState :=
  let s1 :=
    match findA s.aliases t with
    | some _ => s
    | none => { s with aliases := s.aliases ++ [(t, [])] }
  match findA s1.joinInfo t with
  | some _ => s1
  | none => { s1 with joinInfo := s1.joinInfo ++ [(t, [])] }

/- ---------------- row processing ---------------- -/

/-- `_process_regular_field`: emit `alias.column AS "field"` and record the
output alias; a physical table absent from `join_aliases` raises `KeyError`. -/
def process_regular_field (row : MappingRow) (t : String) (ja : SDict) (s : GenState) :
    Except PyErr (String × GenState) :=
  match findA ja row.sqlTable with
  | none => Except.error PyErr.keyError
  | some ga =>
    let expr := ga ++ "." ++ row.sqlField
    Except.ok (expr ++ (" AS \"") ++ row.field1C ++ ("\""),
      setAlias s t row.field1C expr)

/-- `_process_reference_field`: emit the raw `_ID` column and the resolved
descriptive column, allocating a join alias and at most one JOIN clause.
Mirrors the source's two branches (self-reference vs external table). -/
def process_reference_field (row : MappingRow) (t : String) (ja : SDict) (cnt : Nat)
    (mainTable : String) (trk : List String) (s : GenState) :
    Except PyErr (List String × SDict × List String × GenState) :=
  match findA ja row.sqlTable with
  | none => Except.error PyErr.keyError
  | some ga =>
    let externalField := (get_field_type_info row.fieldType).2
    let idExpr := ga ++ "." ++ row.sqlField
    let partId := idExpr ++ (" AS \"") ++ row.field1C ++ ("_ID\"")
    let s1 := setAlias s t (row.field1C ++ ("_ID")) idExpr
    if row.sqlExternalTable = mainTable then
      let al := ("parent_") ++ row.sqlField
      let joinKey := row.sqlExternalTable ++ ("_") ++ al
      let step :=
        if trk.contains joinKey then (ja, trk, s1)
        else
          let cond := ("main.[") ++ row.sqlField ++ ("] = ") ++ al ++ (".[_IDRRef]")
          (insA ja (row.sqlExternalTable ++ row.sqlField) al, joinKey :: trk,
            add_join_info s1 t al
              (("LEFT JOIN ") ++ row.sqlExternalTable ++ (" ") ++ al ++ (" ON ") ++ cond))
      let descExpr := al ++ "." ++ externalField
      Except.ok ([partId, descExpr ++ (" AS \"") ++ row.field1C ++ ("\"")],
        step.1, step.2.1, setAlias step.2.2 t row.field1C descExpr)
    else
      let step :=
        if (findA ja row.sqlExternalTable).isSome then (ja, trk, s1)
        else
          let al := ("ext_") ++ toString cnt
          let ja1 := insA ja row.sqlExternalTable al
          let joinKey := row.sqlExternalTable ++ ("_") ++ al
          match row.relation with
          | some rel =>
            if trk.contains joinKey then (ja1, trk, s1)
            else
              let cond :=
                pyReplace (pyReplace rel (("[") ++ row.sqlExternalTable ++ ("]")) al)
                  (("[") ++ mainTable ++ ("]")) ("main")
              (ja1, joinKey :: trk,
                add_join_info s1 t al
                  (("LEFT JOIN ") ++ row.sqlExternalTable ++ (" ") ++ al ++ (" ON ") ++ cond))
          | none => (ja1, trk, s1)
      match findA step.1 row.sqlExternalTable with
      | none => Except.error PyErr.keyError
      | some ea =>
        let descExpr := ea ++ "." ++ externalField
        Except.ok ([partId, descExpr ++ (" AS \"") ++ row.field1C ++ ("\"")],
          step.1, step.2.1, setAlias step.2.2 t row.field1C descExpr)

/- ---------------- the generation loop ---------------- -/

/-- The `for _, row in table_data.iterrows()` loop of `generate_query`:
accumulates SELECT parts, threads the local `join_aliases` dict, the
reference-field counter, the `join_tracker` set, and the instance state. -/
def genLoop (t mt : String) (ia : Option (List String)) :
    List MappingRow → SDict → Nat → List String → List String → GenState →
    Except PyErr (List String) × GenState
  | [], _, _, _, acc, s => (Except.ok acc, s)
  | row :: rows, ja, cnt, trk, acc, s =>
    if (match ia with | some l => !(l.contains row.field1C) | none => false) then
      genLoop t mt ia rows ja cnt trk acc s
    else if (get_field_type_info row.fieldType).1 = ("regular") then
      match process_regular_field row t ja s with
      | Except.error e => (Except.error e, s)
      | Except.ok (part, s1) => genLoop t mt ia rows ja cnt trk (acc ++ [part]) s1
    else
      match process_reference_field row t ja cnt mt trk s with
      | Except.error e => (Except.error e, s)
      | Except.ok (parts, ja1, trk1, s1) =>
        genLoop t mt ia rows ja1 (cnt + 1) trk1 (acc ++ parts) s1

/-- Appending the recorded JOIN clauses: `for jc in join_info[t].values(): sql += "\n" + jc`. -/
def appendJoins (sql : String) (d : SDict) : String :=
  d.foldl (fun acc kv => acc ++ ("\n") ++ kv.2) sql

/-- Body of `generate_query` past the cache check: select the table's rows,
run the loop, assemble SELECT/FROM/JOIN text, and cache complete generations. -/
def generate_query_core (df : List MappingRow) (s : GenState) (t : String)
    (ia : Option (List String)) : Except PyErr (Option String) × GenState :=
  match df.filter (fun r => r.table1C == t) with
  | [] => (Except.ok none, s)
  | r0 :: rest =>
    let mt := r0.sqlTable
    let s0 := initTables s t
    match genLoop t mt ia (r0 :: rest) [(mt, ("main"))] 0 [] [] s0 with
    | (Except.error e, s1) => (Except.error e, s1)
    | (Except.ok parts, s1) =>
      let sql0 := ("SELECT\n    ") ++ joinSep (",\n    ") parts ++ ("\nFROM ") ++ mt ++ (" main")
      let sql :=
        match findA s1.joinInfo t with
        | some d => appendJoins sql0 d
        | none => sql0
      match ia with
      | none => (Except.ok (some sql), { s1 with queries := insA s1.queries t sql })
      | some _ => (Except.ok (some sql), s1)

/-- `generate_query(table, include_aliases)`: cached complete query when the
filter is absent, otherwise a fresh generation; `ok none` when the logical
table has no mapping rows. -/
def generate_query (df : List MappingRow) (s : GenState) (t : String)
    (ia : Option (List String)) : Except PyErr (Option String) × GenState :=
  match ia with
  | none =>
    match findA s.queries t with
    | some q => (Except.ok (some q), s)
    | none => generate_query_core df s t none
  | some l => generate_query_core df s t (some l)

/-- `get_query_aliases`: generate on a cache miss, then raise `ValueError`
when the table is still unknown. -/
def get_query_aliases (df : List MappingRow) (s : GenState) (t : String) :
    Except PyErr SDict × GenState :=
  let gen :=
    if (findA s.aliases t).isSome then (Except.ok none, s)
    else generate_query df s t none
  match gen with
  | (Except.error e, s1) => (Except.error e, s1)
  | (Except.ok _, s1) =>
    match findA s1.aliases t with
    | none => (Except.error PyErr.valueError, s1)
    | some d => (Except.ok d, s1)

/-- `get_table_join_info`: generate on a miss, then `self._join_info.get(t, {})`. -/
def get_table_join_info (df : List MappingRow) (s : GenState) (t : String) :
    Except PyErr SDict × GenState :=
  let gen :=
    if (findA s.joinInfo t).isSome then (Except.ok none, s)
    else generate_query df s t none
  match gen with
  | (Except.error e, s1) => (Except.error e, s1)
  | (Except.ok _, s1) => (Except.ok ((findA s1.joinInfo t).getD []), s1)

/- ---------------- the alias renamer ---------------- -/

/-- Keywords whose line (case-insensitively) ends the SELECT column list. -/
def exitKeywords : List String := ["FROM", "WHERE", "GROUP", "HAVING", "ORDER", "JOIN"]

/-- The line (stripped, uppercased) starts with `SELECT`. -/
def lineIsSelect (line : String) : Bool :=
  pyStartsWith (pyUpper (pyStrip line)) ("SELECT")

/-- The line (stripped, uppercased) starts a non-SELECT section. -/
def lineIsExit (line : String) : Bool :=
  exitKeywords.any (fun k => pyStartsWith (pyUpper (pyStrip line)) k)

/-- Rewrite one line inside the SELECT column list (lines 255-288 of the source):
comma handling, case-insensitive `AS` detection, quote stripping, rename lookup.
The case-sensitive `split(' AS ', 1)` after the case-insensitive containment
check raises `IndexError` when the separator is not literally `' AS '`. -/
def renameSelectLine (m : SDict) (line : String) : Except PyErr String :=
  let stripped := pyStrip line
  let hasComma := pyEndsWith stripped (",")
  let clean := pyRstripCS stripped [',', ' ']
  if pyContains (pyUpper clean) (" AS ") then
    match pySplit1 clean (" AS ") with
    | [p0, p1] =>
      let expr := pyStrip p0
      let aliasPart := pyStrip p1
      let al :=
        if pyStartsWith aliasPart ("\"") && pyEndsWith aliasPart ("\"") then
          pySlice1m1 aliasPart
        else if pyStartsWith aliasPart ⟨[squoteChar]⟩ && pyEndsWith aliasPart ⟨[squoteChar]⟩ then
          pySlice1m1 aliasPart
        else aliasPart
      let newAl := (findA m al).getD al
      let indent : String := ⟨List.replicate (line.data.length - stripped.data.length) ' '⟩
      let comma := if hasComma then (",") else ("")
      Except.ok (indent ++ expr ++ (" AS \"") ++ newAl ++ ("\"") ++ comma)
    | _ => Except.error PyErr.indexError
  else
    Except.ok (if hasComma then pyRstripCS line [',', ' '] ++ (",") else line)

/-- The line-by-line loop of `rename_aliases`, tracking the SELECT-section flag. -/
def renameLines (m : SDict) : List String → Bool → Except PyErr (List String)
  | [], _ => Except.ok []
  | l :: ls, inSel =>
    if lineIsSelect l then
      match renameLines m ls true with
      | Except.error e => Except.error e
      | Except.ok r => Except.ok (l :: r)
    else if lineIsExit l then
      match renameLines m ls false with
      | Except.error e => Except.error e
      | Except.ok r => Except.ok (l :: r)
    else if !inSel then
      match renameLines m ls inSel with
      | Except.error e => Except.error e
      | Except.ok r => Except.ok (l :: r)
    else
      match renameSelectLine m l with
      | Except.error e => Except.error e
      | Except.ok l1 =>
        match renameLines m ls inSel with
        | Except.error e => Except.error e
        | Except.ok r => Except.ok (l1 :: r)

/-- `rename_aliases(query, rename_dict)`: early return on falsy input, key
normalisation (stripping quotes), then the line loop joined back with `'\n'`. -/
def rename_aliases (query : String) (renameDict : List (String × String)) :
    Except PyErr String :=
  if query = ("") || renameDict.isEmpty then Except.ok query
  else
    let normalized :=
      renameDict.foldl (fun d kv => insA d (pyStripCS kv.1 quoteChars) kv.2) []
    match renameLines normalized (pyLines query) false with
    | Except.error e => Except.error e
    | Except.ok ls => Except.ok (joinSep ("\n") ls)

/- ---------------- specification-side helpers ---------------- -/

/-- The SELECT-section flag after processing one line, as the spec describes it. -/
def nextInSel (b : Bool) (l : String) : Bool :=
  if lineIsSelect l then true else if lineIsExit l then false else b

/-- Whether line `i` lies inside the SELECT column list (it is processed with
the flag set and is itself neither a SELECT line nor a section-exit line). -/
def inBodyAt : List String → Bool → Nat → Bool
  | [], _, _ => false
  | l :: _, b, 0 => b && !(lineIsSelect l) && !(lineIsExit l)
  | l :: ls, b, Nat.succ n => inBodyAt ls (nextInSel b l) n

/-- A sequence of further generation calls against the same instance. -/
def runCalls (df : List MappingRow) (calls : List (String × Option (List String)))
    (s : GenState) : GenState :=
  calls.foldl (fun st c => (generate_query df st c.1 c.2).2) s

/- ---------------- proof-side decompositions ---------------- -/

/-- The pure content of `_process_reference_field`: SELECT parts, updated local
`join_aliases` and `join_tracker`, the output-alias writes, and the optional
JOIN-store insertion — everything except the threading of the instance state. -/
def refPure (row : MappingRow) (ja : SDict) (cnt : Nat) (mt : String) (trk : List String) :
    Except PyErr
      (List String × SDict × List String × List (String × String) × Option (String × String)) :=
  match findA ja row.sqlTable with
  | none => Except.error PyErr.keyError
  | some ga =>
    let externalField := (get_field_type_info row.fieldType).2
    let idExpr := ga ++ "." ++ row.sqlField
    let partId := idExpr ++ (" AS \"") ++ row.field1C ++ ("_ID\"")
    if row.sqlExternalTable = mt then
      let al := ("parent_") ++ row.sqlField
      let joinKey := row.sqlExternalTable ++ ("_") ++ al
      let step :=
        if trk.contains joinKey then (ja, trk, (none : Option (String × String)))
        else
          let cond := ("main.[") ++ row.sqlField ++ ("] = ") ++ al ++ (".[_IDRRef]")
          (insA ja (row.sqlExternalTable ++ row.sqlField) al, joinKey :: trk,
            some (al, ("LEFT JOIN ") ++ row.sqlExternalTable ++ (" ") ++ al ++ (" ON ") ++ cond))
      let descExpr := al ++ "." ++ externalField
      Except.ok ([partId, descExpr ++ (" AS \"") ++ row.field1C ++ ("\"")], step.1, step.2.1,
        [(row.field1C ++ ("_ID"), idExpr), (row.field1C, descExpr)], step.2.2)
    else
      let step :=
        if (findA ja row.sqlExternalTable).isSome then (ja, trk, (none : Option (String × String)))
        else
          let al := ("ext_") ++ toString cnt
          let ja1 := insA ja row.sqlExternalTable al
          let joinKey := row.sqlExternalTable ++ ("_") ++ al
          match row.relation with
          | some rel =>
            if trk.contains joinKey then (ja1, trk, none)
            else
              let cond :=
                pyReplace (pyReplace rel (("[") ++ row.sqlExternalTable ++ ("]")) al)
                  (("[") ++ mt ++ ("]")) ("main")
              (ja1, joinKey :: trk,
                some (al, ("LEFT JOIN ") ++ row.sqlExternalTable ++ (" ") ++ al ++ (" ON ") ++ cond))
          | none => (ja1, trk, none)
      match findA step.1 row.sqlExternalTable with
      | none => Except.error PyErr.keyError
      | some ea =>
        let descExpr := ea ++ "." ++ externalField
        Except.ok ([partId, descExpr ++ (" AS \"") ++ row.field1C ++ ("\"")], step.1, step.2.1,
          [(row.field1C ++ ("_ID"), idExpr), (row.field1C, descExpr)], step.2.2)

/-- Replay the state effects extracted by `refPure` on an instance state. -/
def applyState (s : GenState) (t : String) (als : List (String × String))
    (jins : Option (String × String)) : GenState :=
  let s1 := als.foldl (fun st kv => setAlias st t kv.1 kv.2) s
  match jins with
  | some kv => add_join_info s1 t kv.1 kv.2
  | none => s1

/-- The sequence of (join alias, JOIN clause) insertions one run of the
generation loop performs on `_join_info[t]` — a pure function of the rows,
the filter, and the loop-local data. -/
def insSeq (mt : String) (ia : Option (List String)) :
    List MappingRow → SDict → Nat → List String → List (String × String)
  | [], _, _, _ => []
  | row :: rows, ja, cnt, trk =>
    if (match ia with | some l => !(l.contains row.field1C) | none => false) then
      insSeq mt ia rows ja cnt trk
    else if (get_field_type_info row.fieldType).1 = ("regular") then
      match findA ja row.sqlTable with
      | none => []
      | some _ => insSeq mt ia rows ja cnt trk
    else
      match refPure row ja cnt mt trk with
      | Except.error _ => []
      | Except.ok (_, ja1, trk1, _, jins) =>
        (match jins with | some kv => [kv] | none => []) ++ insSeq mt ia rows ja1 (cnt + 1) trk1

/-- Fold a sequence of dictionary insertions over a dictionary. -/
def foldIns (d : SDict) (l : List (String × String)) : SDict :=
  l.foldl (fun d1 kv => insA d1 kv.1 kv.2) d

/-- Two dictionaries identical except for the value stored at key `k`
(at `k`'s first occurrence). -/
def DiffOnlyAt (k : String) (e e1 : SDict) : Prop :=
  ∃ l1 v v1 l2, e = l1 ++ (k, v) :: l2 ∧ e1 = l1 ++ (k, v1) :: l2 ∧ ∀ p ∈ l1, p.1 ≠ k

/- ---------------- concrete instances ---------------- -/

/-- One-row mapping: `Orders.Date`, no type tag, `Tbl1.Date1`. -/
def rowC2 : MappingRow := ⟨"Orders", "Date", none, "Tbl1", "Date1", "", none⟩

/-- The one-row mapping table of the first concrete scenario. -/
def dfC2 : List MappingRow := [rowC2]

/-- The reference row of the second concrete scenario: `Orders.Customer`,
tag `Catalog.Customer`, `Tbl1.CustRef`, external `Tbl2`. -/
def rowC1b : MappingRow :=
  ⟨"Orders", "Customer", some "Catalog.Customer", "Tbl1", "CustRef", "Tbl2",
    some "[Tbl1].CustRef = [Tbl2]._IDRRef"⟩

/-- The two-row mapping table of the second concrete scenario. -/
def dfC1 : List MappingRow := [rowC2, rowC1b]

/-- Mapping with three reference fields (two to `T2`, one to `T3`), exercising
the alias-counter gap that lets filtered runs leave stale JOIN entries. -/
def dfC3 : List MappingRow :=
  [⟨"T", "A", some "Справочник.X", "M", "f1", "T2", some "[M].f1 = [T2]._IDRRef"⟩,
   ⟨"T", "B", some "Справочник.X", "M", "f2", "T2", some "[M].f2 = [T2]._IDRRef"⟩,
   ⟨"T", "C", some "Справочник.X", "M", "f3", "T3", some "[M].f3 = [T3]._IDRRef"⟩]

/-- Complete generation of `T` on a fresh instance. -/
def qFreshC3 : String :=
  "SELECT\n    main.f1 AS \"A_ID\",\n    ext_0._Description AS \"A\",\n    main.f2 AS \"B_ID\",\n    ext_0._Description AS \"B\",\n    main.f3 AS \"C_ID\",\n    ext_2._Description AS \"C\"\nFROM M main\nLEFT JOIN T2 ext_0 ON main.f1 = ext_0._IDRRef\nLEFT JOIN T3 ext_2 ON main.f3 = ext_2._IDRRef"

/-- Complete generation of `T` after a filtered generation of fields B, C:
the stale `ext_1` JOIN from the filtered run survives. -/
def qStaleC3 : String :=
  "SELECT\n    main.f1 AS \"A_ID\",\n    ext_0._Description AS \"A\",\n    main.f2 AS \"B_ID\",\n    ext_0._Description AS \"B\",\n    main.f3 AS \"C_ID\",\n    ext_2._Description AS \"C\"\nFROM M main\nLEFT JOIN T2 ext_0 ON main.f1 = ext_0._IDRRef\nLEFT JOIN T3 ext_1 ON main.f3 = ext_1._IDRRef\nLEFT JOIN T3 ext_2 ON main.f3 = ext_2._IDRRef"

/-- Mapping whose second row names a physical table (`X`) that is neither the
main table nor a previously aliased external table. -/
def dfC10 : List MappingRow :=
  [⟨"T", "A", none, "M", "c1", "", none⟩, ⟨"T", "B", none, "X", "c2", "", none⟩]

/-- Mapping with two logical tables, for the determinism witness. -/
def dfW : List MappingRow := [rowC2, ⟨"U", "F", none, "UT", "uc", "", none⟩]

/-- Rename map whose key equals a physical column occurring only in a JOIN
condition of the witness query. -/
def wm : SDict := [("CustRef", "Renamed")]

/-- Lines of a generated query with a JOIN clause mentioning `CustRef`. -/
def wls : List String :=
  ["SELECT", "    main.Date1 AS \"Date\",", "    main.CustRef AS \"Customer_ID\"",
   "FROM Tbl1 main", "LEFT JOIN Tbl2 ext_0 ON main.CustRef = ext_0._IDRRef"]

/- ======================== theorems ======================== -/

/-- Claim C2: on the one-row mapping (logical table Orders, field Date, no type
tag, physical Tbl1.Date1), a fresh instance's generate_query("Orders") returns
exactly the string `SELECT\n    main.Date1 AS "Date"\nFROM Tbl1 main`, with no
JOIN lines. -/
theorem one_row_scenario :
    (generate_query dfC2 initState ("Orders") none).1
      = Except.ok (some ("SELECT\n    main.Date1 AS \"Date\"\nFROM Tbl1 main")) := rfl

/-- Claim C1: adding the reference row (field Customer, tag Catalog.Customer,
physical Tbl1.CustRef, external Tbl2, relation `[Tbl1].CustRef = [Tbl2]._IDRRef`)
yields, relative to the one-row case, exactly the two extra output columns
`Customer_ID` and `Customer` and exactly one LEFT JOIN to Tbl2 under alias
ext_0, whose condition substitutes `[Tbl2]` by `ext_0` and `[Tbl1]` by `main`
in the relation text. -/
theorem two_row_reference_scenario :
    (generate_query dfC2 initState ("Orders") none).1
      = Except.ok (some (("SELECT\n    main.Date1 AS \"Date\"") ++ ("\nFROM Tbl1 main"))) ∧
    (generate_query dfC1 initState ("Orders") none).1
      = Except.ok (some (("SELECT\n    main.Date1 AS \"Date\"")
          ++ (",\n    main.CustRef AS \"Customer_ID\"")
          ++ (",\n    ext_0._Description AS \"Customer\"")
          ++ ("\nFROM Tbl1 main")
          ++ ("\nLEFT JOIN Tbl2 ext_0 ON ")
          ++ pyReplace (pyReplace ("[Tbl1].CustRef = [Tbl2]._IDRRef") ("[Tbl2]") ("ext_0"))
              ("[Tbl1]") ("main"))) ∧
    findA (generate_query dfC1 initState ("Orders") none).2.joinInfo ("Orders")
      = some [(("ext_0"),
          ("LEFT JOIN Tbl2 ext_0 ON ")
            ++ pyReplace (pyReplace ("[Tbl1].CustRef = [Tbl2]._IDRRef") ("[Tbl2]") ("ext_0"))
                ("[Tbl1]") ("main"))] ∧
    findA (generate_query dfC2 initState ("Orders") none).2.joinInfo ("Orders") = some [] :=
  ⟨rfl, rfl, rfl, rfl⟩

/-- Claim C3 (counterexample): on dfC3, a complete generation performed after a
field-filtered generation of fields B and C returns a different text than a
complete generation on a fresh instance — the filtered run leaves a stale
`LEFT JOIN T3 ext_1` entry that the complete run does not reassign. -/
theorem complete_after_filtered_cex :
    (generate_query dfC3 initState ("T") none).1 = Except.ok (some qFreshC3) ∧
    (generate_query dfC3 (generate_query dfC3 initState ("T") (some [("B"), ("C")])).2
        ("T") none).1 = Except.ok (some qStaleC3) ∧
    qFreshC3 ≠ qStaleC3 :=
  ⟨rfl, rfl, by decide⟩

/-- Claim C4 (counterexample): two generate_query calls with the same table and
the same filter `["Date"]`, separated by a complete generation of the same
table, return different texts — the intervening call populates `_join_info`
and the second filtered call appends the accumulated JOIN clause. -/
theorem filtered_repeat_cex :
    (generate_query dfC1 initState ("Orders") (some [("Date")])).1
      = Except.ok (some ("SELECT\n    main.Date1 AS \"Date\"\nFROM Tbl1 main")) ∧
    (generate_query dfC1
        (generate_query dfC1
          (generate_query dfC1 initState ("Orders") (some [("Date")])).2 ("Orders") none).2
        ("Orders") (some [("Date")])).1
      = Except.ok (some
          ("SELECT\n    main.Date1 AS \"Date\"\nFROM Tbl1 main\nLEFT JOIN Tbl2 ext_0 ON main.CustRef = ext_0._IDRRef")) ∧
    ("SELECT\n    main.Date1 AS \"Date\"\nFROM Tbl1 main" : String)
      ≠ ("SELECT\n    main.Date1 AS \"Date\"\nFROM Tbl1 main\nLEFT JOIN Tbl2 ext_0 ON main.CustRef = ext_0._IDRRef") :=
  ⟨rfl, rfl, by decide⟩

/-- Claim C5 (counterexample): an empty — but present — type tag is NOT
classified as regular: `pd.isna("")` is false, the leading dotted segment of
`""` is `""`, and the permissive default returns the reference category with
the description suffix. An absent tag does yield regular. -/
theorem empty_tag_cex :
    get_field_type_info (some ("")) = (("reference"), ("_Description")) ∧
    get_field_type_info none = (("regular"), ("")) :=
  ⟨rfl, rfl⟩

/-- Claim C6 (counterexample): for an unknown logical table,
get_table_join_info does not raise — `self._join_info.get(t, {})` returns the
empty dictionary — while get_query_aliases does raise ValueError. -/
theorem join_info_unknown_cex :
    (get_table_join_info ([] : List MappingRow) initState ("Missing")).1 = Except.ok [] ∧
    (get_query_aliases ([] : List MappingRow) initState ("Missing")).1
      = Except.error PyErr.valueError :=
  ⟨rfl, rfl⟩

/-- Claim C8: the AS separator handling is not totally case-insensitive: the
containment check uppercases the line, but `split(' AS ', 1)` is
case-sensitive, so a SELECT-list line written with lowercase ` as ` raises
IndexError at `parts[1]`, while the same line with uppercase ` AS ` is
re-emitted with the resolved, quoted alias. -/
theorem rename_lowercase_as_bug :
    rename_aliases ("SELECT\n    main.Date1 as \"Date\"\nFROM Tbl1 main") [(("Date"), ("When"))]
      = Except.error PyErr.indexError ∧
    rename_aliases ("SELECT\n    main.Date1 AS \"Date\"\nFROM Tbl1 main") [(("Date"), ("When"))]
      = Except.ok ("SELECT\n    main.Date1 AS \"When\"\nFROM Tbl1 main") :=
  ⟨rfl, rfl⟩

/-- Claim C10: a mapping row whose physical table (`X`) is neither the logical
table's main physical table nor a previously aliased external table makes
generate_query raise an unhandled KeyError at the `join_aliases[gk_table]`
lookup, rather than returning an absent result. -/
theorem unknown_physical_table_keyerror :
    (generate_query dfC10 initState ("T") none).1 = Except.error PyErr.keyError := rfl

/- ---------------- dictionary lemmas ---------------- -/

theorem findA_insA_self (d : SDict) (k v : String) : findA (insA d k v) k = some v := by
  induction d with
  | nil => simp [insA, findA]
  | cons p rest ih =>
    obtain ⟨k1, v1⟩ := p
    by_cases h : k1 = k
    · simp [insA, findA, h]
    · simp [insA, findA, h, ih]

theorem findA_insA_ne (d : SDict) (k1 k v : String) (h : k1 ≠ k) :
    findA (insA d k1 v) k = findA d k := by
  induction d with
  | nil => simp [insA, findA, h]
  | cons p rest ih =>
    obtain ⟨k2, v2⟩ := p
    by_cases h2 : k2 = k1
    · simp [insA, findA, h2, h]
    · by_cases h3 : k2 = k <;> simp [insA, findA, h2, h3, ih, Ne.symm h]

theorem insA_of_find_eq (d : SDict) (k v : String) (h : findA d k = some v) :
    insA d k v = d := by
  induction d with
  | nil => simp [findA] at h
  | cons p rest ih =>
    obtain ⟨k1, v1⟩ := p
    by_cases h1 : k1 = k
    · simp [findA, h1] at h
      simp [insA, h1, h]
    · simp [findA, h1] at h
      simp [insA, h1, ih h]

theorem findA_append_of_ne {α : Type} (d : List (String × α)) (u t : String) (x : α)
    (h : u ≠ t) : findA (d ++ [(u, x)]) t = findA d t := by
  induction d with
  | nil => simp [findA, h]
  | cons p rest ih =>
    obtain ⟨k1, v1⟩ := p
    by_cases h1 : k1 = t <;> simp [findA, h1, ih]

theorem findA_append_of_none {α : Type} (d : List (String × α)) (t : String) (x : α)
    (h : findA d t = none) : findA (d ++ [(t, x)]) t = some x := by
  induction d with
  | nil => simp [findA]
  | cons p rest ih =>
    obtain ⟨k1, v1⟩ := p
    by_cases h1 : k1 = t
    · simp [findA, h1] at h
    · simp [findA, h1] at h ⊢
      exact ih h

theorem ndSet_find_self (d : NDict) (t k v : String) :
    findA (ndSet d t k v) t = some (insA ((findA d t).getD []) k v) := by
  induction d with
  | nil => simp [ndSet, findA, insA]
  | cons p rest ih =>
    obtain ⟨t1, d1⟩ := p
    by_cases h : t1 = t
    · simp [ndSet, findA, h]
    · simp [ndSet, findA, h, ih]

theorem ndSet_find_ne (d : NDict) (t1 t k v : String) (h : t1 ≠ t) :
    findA (ndSet d t1 k v) t = findA d t := by
  induction d with
  | nil => simp [ndSet, findA, h]
  | cons p rest ih =>
    obtain ⟨t2, d2⟩ := p
    by_cases h2 : t2 = t1
    · subst h2
      simp [ndSet, findA, h]
    · by_cases h3 : t2 = t <;> simp [ndSet, findA, h2, h3, ih, Ne.symm h]

/- ---------------- state-helper lemmas ---------------- -/

theorem setAlias_queries (s : GenState) (t k v : String) :
    (setAlias s t k v).queries = s.queries := rfl

theorem setAlias_joinInfo (s : GenState) (t k v : String) :
    (setAlias s t k v).joinInfo = s.joinInfo := rfl

theorem add_join_info_queries (s : GenState) (t al cond : String) :
    (add_join_info s t al cond).queries = s.queries := rfl

theorem foldlSetAlias_queries (als : List (String × String)) (t : String) :
    ∀ s : GenState, (als.foldl (fun st kv => setAlias st t kv.1 kv.2) s).queries = s.queries := by
  induction als with
  | nil => intro s; rfl
  | cons kv rest ih => intro s; exact ih (setAlias s t kv.1 kv.2)

theorem foldlSetAlias_joinInfo (als : List (String × String)) (t : String) :
    ∀ s : GenState, (als.foldl (fun st kv => setAlias st t kv.1 kv.2) s).joinInfo = s.joinInfo := by
  induction als with
  | nil => intro s; rfl
  | cons kv rest ih => intro s; exact ih (setAlias s t kv.1 kv.2)

theorem applyState_queries (s : GenState) (t : String) (als : List (String × String))
    (jins : Option (String × String)) : (applyState s t als jins).queries = s.queries := by
  cases jins with
  | none => exact foldlSetAlias_queries als t s
  | some kv =>
    show (add_join_info _ t kv.1 kv.2).queries = s.queries
    rw [add_join_info_queries]
    exact foldlSetAlias_queries als t s

theorem applyState_joinInfo (s : GenState) (t : String) (als : List (String × String))
    (jins : Option (String × String)) :
    (applyState s t als jins).joinInfo =
      (match jins with
       | none => s.joinInfo
       | some kv => ndSet s.joinInfo t kv.1 kv.2) := by
  cases jins with
  | none => exact foldlSetAlias_joinInfo als t s
  | some kv =>
    show (add_join_info _ t kv.1 kv.2).joinInfo = _
    unfold add_join_info
    rw [foldlSetAlias_joinInfo als t s]

theorem initTables_queries (s : GenState) (t : String) : (initTables s t).queries = s.queries := by
  unfold initTables
  cases findA s.aliases t <;> dsimp only <;> split <;> rfl

theorem initTables_joinInfo_self (s : GenState) (t : String) :
    findA (initTables s t).joinInfo t = some ((findA s.joinInfo t).getD []) := by
  unfold initTables
  cases findA s.aliases t <;> dsimp only
  · cases h2 : findA s.joinInfo t <;> dsimp only
    · simp [findA_append_of_none _ _ _ h2]
    · simp [h2]
  · cases h2 : findA s.joinInfo t <;> dsimp only
    · simp [findA_append_of_none _ _ _ h2]
    · simp [h2]

theorem initTables_joinInfo_ne (s : GenState) (u t : String) (h : u ≠ t) :
    findA (initTables s u).joinInfo t = findA s.joinInfo t := by
  unfold initTables
  cases findA s.aliases u <;> dsimp only <;>
    cases h2 : findA s.joinInfo u <;>
      simp [h2, findA_append_of_ne _ _ _ _ h]

/-- `_process_reference_field` factors into its pure content (`refPure`)
replayed on the instance state (`applyState`). -/
theorem prf_factor (row : MappingRow) (t : String) (ja : SDict) (cnt : Nat) (mt : String)
    (trk : List String) (s : GenState) :
    process_reference_field row t ja cnt mt trk s =
      (match refPure row ja cnt mt trk with
       | Except.error e => Except.error e
       | Except.ok (parts, ja1, trk1, als, jins) =>
         Except.ok (parts, ja1, trk1, applyState s t als jins)) := by
  unfold process_reference_field refPure
  cases hg : findA ja row.sqlTable with
  | none => rfl
  | some ga =>
    dsimp only
    by_cases hx : row.sqlExternalTable = mt
    · simp only [if_pos hx]
      by_cases htr : (row.sqlExternalTable ++ ("_") ++ (("parent_") ++ row.sqlField)) ∈ trk
      · simp [htr, applyState, setAlias, add_join_info]
      · simp [htr, applyState, setAlias, add_join_info]
    · simp only [if_neg hx]
      cases hfe : findA ja row.sqlExternalTable with
      | some ea => simp [hfe, applyState, setAlias, add_join_info]
      | none =>
        cases hrel : row.relation with
        | none =>
          simp [hfe, hrel, applyState, findA_insA_self, setAlias]
        | some rel =>
          by_cases htr2 : (row.sqlExternalTable ++ ("_") ++ (("ext_") ++ toString cnt)) ∈ trk
          · simp [hfe, hrel, htr2, applyState, findA_insA_self, setAlias]
          · simp [hfe, hrel, htr2, applyState, findA_insA_self, setAlias, add_join_info]

/-- The generation loop never touches the query cache. -/
theorem genLoop_queries (t mt : String) (ia : Option (List String)) (rows : List MappingRow) :
    ∀ ja cnt trk acc s, (genLoop t mt ia rows ja cnt trk acc s).2.queries = s.queries := by
  induction rows with
  | nil => intro ja cnt trk acc s; rfl
  | cons row rows ih =>
    intro ja cnt trk acc s
    simp only [genLoop]
    split
    · exact ih _ _ _ _ _
    · split
      · cases hf : findA ja row.sqlTable with
        | none => simp [process_regular_field, hf]
        | some ga =>
          simp only [process_regular_field, hf]
          rw [ih]
          rfl
      · rw [prf_factor row t ja cnt mt trk s]
        cases hp : refPure row ja cnt mt trk with
        | error e => simp
        | ok v =>
          obtain ⟨parts, ja1, trk1, als, jins⟩ := v
          simp only []
          rw [ih]
          exact applyState_queries s t als jins

/-- The loop's result component is independent of the instance state. -/
theorem genLoop_pure (t mt : String) (ia : Option (List String)) (rows : List MappingRow) :
    ∀ ja cnt trk acc s s1,
      (genLoop t mt ia rows ja cnt trk acc s).1 = (genLoop t mt ia rows ja cnt trk acc s1).1 := by
  induction rows with
  | nil => intro ja cnt trk acc s s1; rfl
  | cons row rows ih =>
    intro ja cnt trk acc s s1
    simp only [genLoop]
    split
    · exact ih _ _ _ _ _ _
    · split
      · cases hf : findA ja row.sqlTable with
        | none => simp [process_regular_field, hf]
        | some ga =>
          simp only [process_regular_field, hf]
          exact ih _ _ _ _ _ _
      · rw [prf_factor row t ja cnt mt trk s, prf_factor row t ja cnt mt trk s1]
        cases hp : refPure row ja cnt mt trk with
        | error e => simp
        | ok v =>
          obtain ⟨parts, ja1, trk1, als, jins⟩ := v
          simp only []
          exact ih _ _ _ _ _ _

/-- The loop only writes `_join_info` at its own logical table. -/
theorem genLoop_joinInfo_frame (t mt : String) (ia : Option (List String)) (u : String)
    (h : t ≠ u) (rows : List MappingRow) :
    ∀ ja cnt trk acc s,
      findA (genLoop t mt ia rows ja cnt trk acc s).2.joinInfo u = findA s.joinInfo u := by
  induction rows with
  | nil => intro ja cnt trk acc s; rfl
  | cons row rows ih =>
    intro ja cnt trk acc s
    simp only [genLoop]
    split
    · exact ih _ _ _ _ _
    · split
      · cases hf : findA ja row.sqlTable with
        | none => simp [process_regular_field, hf]
        | some ga =>
          simp only [process_regular_field, hf]
          rw [ih]
          rfl
      · rw [prf_factor row t ja cnt mt trk s]
        cases hp : refPure row ja cnt mt trk with
        | error e => simp
        | ok v =>
          obtain ⟨parts, ja1, trk1, als, jins⟩ := v
          simp only []
          rw [ih]
          rw [applyState_joinInfo]
          cases jins with
          | none => rfl
          | some kv => exact ndSet_find_ne _ _ _ _ _ h

/-- The loop's effect on `_join_info[t]` is exactly the fold of the pure
insertion sequence `insSeq` over the incoming dictionary. -/
theorem genLoop_joinInfo_fold (t mt : String) (ia : Option (List String)) (rows : List MappingRow) :
    ∀ ja cnt trk acc s d, findA s.joinInfo t = some d →
      findA (genLoop t mt ia rows ja cnt trk acc s).2.joinInfo t
        = some (foldIns d (insSeq mt ia rows ja cnt trk)) := by
  induction rows with
  | nil =>
    intro ja cnt trk acc s d hd
    simpa [genLoop, insSeq, foldIns] using hd
  | cons row rows ih =>
    intro ja cnt trk acc s d hd
    cases hskip : (match ia with | some l => !(l.contains row.field1C) | none => false) with
    | true =>
      simp only [genLoop, insSeq, hskip, if_true]
      exact ih _ _ _ _ _ _ hd
    | false =>
      simp only [genLoop, insSeq, hskip, Bool.false_eq_true, if_false]
      by_cases hreg : (get_field_type_info row.fieldType).1 = ("regular")
      · simp only [if_pos hreg]
        cases hf : findA ja row.sqlTable with
        | none => simpa [process_regular_field, hf, foldIns] using hd
        | some ga =>
          simp only [process_regular_field, hf]
          exact ih _ _ _ _ _ _ hd
      · simp only [if_neg hreg]
        rw [prf_factor row t ja cnt mt trk s]
        cases hp : refPure row ja cnt mt trk with
        | error e => simpa [foldIns] using hd
        | ok v =>
          obtain ⟨parts, ja1, trk1, als, jins⟩ := v
          simp only []
          cases jins with
          | none =>
            have hd1 : findA (applyState s t als none).joinInfo t = some d := by
              rw [applyState_joinInfo]; exact hd
            simpa [foldIns] using ih _ _ _ _ _ _ hd1
          | some kv =>
            have hd1 : findA (applyState s t als (some kv)).joinInfo t
                = some (insA d kv.1 kv.2) := by
              rw [applyState_joinInfo]
              simp [ndSet_find_self, hd]
            have hrec := ih ja1 (cnt + 1) trk1 (acc ++ parts) _ _ hd1
            simpa [foldIns] using hrec

/- ---------------- idempotence of an insertion sequence ---------------- -/

theorem foldIns_nil (d : SDict) : foldIns d [] = d := rfl

theorem foldIns_cons (d : SDict) (kv : String × String) (l : List (String × String)) :
    foldIns d (kv :: l) = foldIns (insA d kv.1 kv.2) l := rfl

theorem findA_foldIns_isSome (l : List (String × String)) :
    ∀ d k, (findA d k).isSome → (findA (foldIns d l) k).isSome := by
  induction l with
  | nil => intro d k h; simpa [foldIns] using h
  | cons kv rest ih =>
    intro d k h
    rw [foldIns_cons]
    refine ih _ _ ?_
    by_cases he : kv.1 = k
    · subst he
      simp [findA_insA_self]
    · rw [findA_insA_ne _ _ _ _ he]
      exact h

theorem findA_foldIns_not_mem (l : List (String × String)) :
    ∀ d k, k ∉ l.map Prod.fst → findA (foldIns d l) k = findA d k := by
  induction l with
  | nil => intro d k _; rfl
  | cons kv rest ih =>
    intro d k h
    have h1 : kv.1 ≠ k := by
      intro he
      exact h (by simp [he])
    have h2 : k ∉ rest.map Prod.fst := by
      intro hm
      exact h (by simp [hm])
    rw [foldIns_cons, ih _ _ h2, findA_insA_ne _ _ _ _ h1]

theorem findA_decomp (e : SDict) (k v : String) :
    findA e k = some v → ∃ l1 l2, e = l1 ++ (k, v) :: l2 ∧ ∀ p ∈ l1, p.1 ≠ k := by
  induction e with
  | nil => intro h; simp [findA] at h
  | cons p rest ih =>
    obtain ⟨k1, v1⟩ := p
    intro h
    by_cases h1 : k1 = k
    · subst h1
      simp [findA] at h
      subst h
      exact ⟨[], rest, rfl, by simp⟩
    · simp [findA, h1] at h
      obtain ⟨l1, l2, he, hk⟩ := ih h
      refine ⟨(k1, v1) :: l1, l2, by rw [he]; rfl, ?_⟩
      intro p hp
      rcases List.mem_cons.mp hp with h2 | h2
      · subst h2; exact h1
      · exact hk p h2

theorem insFirst (k v w : String) (l2 : SDict) :
    ∀ l1 : SDict, (∀ p ∈ l1, p.1 ≠ k) → insA (l1 ++ (k, w) :: l2) k v = l1 ++ (k, v) :: l2 := by
  intro l1
  induction l1 with
  | nil => intro _; simp [insA]
  | cons p rest ih =>
    obtain ⟨k1, v1⟩ := p
    intro h
    have h1 : k1 ≠ k := h (k1, v1) (by simp)
    have h2 : ∀ p ∈ rest, p.1 ≠ k := fun p hp => h p (by simp [hp])
    simp [insA, h1, ih h2]

theorem insA_append_of_mem (k v : String) (r : SDict) :
    ∀ l1 : SDict, (findA l1 k).isSome → insA (l1 ++ r) k v = insA l1 k v ++ r := by
  intro l1
  induction l1 with
  | nil => intro h; simp [findA] at h
  | cons p rest ih =>
    obtain ⟨k1, v1⟩ := p
    intro h
    by_cases h1 : k1 = k
    · simp [insA, h1]
    · simp [findA, h1] at h
      simp [insA, h1, ih h]

theorem insA_append_of_not_mem (k v : String) (r : SDict) :
    ∀ l1 : SDict, findA l1 k = none → insA (l1 ++ r) k v = l1 ++ insA r k v := by
  intro l1
  induction l1 with
  | nil => intro _; rfl
  | cons p rest ih =>
    obtain ⟨k1, v1⟩ := p
    intro h
    by_cases h1 : k1 = k
    · simp [findA, h1] at h
    · simp [findA, h1] at h
      simp [insA, h1, ih h]

theorem insA_keys_preserve (d : SDict) (k k1 v : String) (hl : ∀ p ∈ d, p.1 ≠ k)
    (hne : k1 ≠ k) : ∀ p ∈ insA d k1 v, p.1 ≠ k := by
  induction d with
  | nil =>
    intro p hp
    simp [insA] at hp
    subst hp
    exact hne
  | cons q rest ih =>
    obtain ⟨k2, v2⟩ := q
    intro p hp
    by_cases h2 : k2 = k1
    · simp [insA, h2] at hp
      rcases hp with h3 | h3
      · subst h3; exact hne
      · exact hl p (by simp [h3])
    · simp [insA, h2] at hp
      rcases hp with h3 | h3
      · subst h3
        exact hl (k2, v2) (by simp)
      · exact ih (fun p hp => hl p (by simp [hp])) p h3

theorem doa_insA_eq (k v : String) (e e1 : SDict) (h : DiffOnlyAt k e e1) :
    insA e k v = insA e1 k v := by
  obtain ⟨l1, w, w1, l2, he, he1, hk⟩ := h
  rw [he, he1, insFirst k v w l2 l1 hk, insFirst k v w1 l2 l1 hk]

theorem doa_insA_ne (k k1 v : String) (e e1 : SDict) (hne : k1 ≠ k)
    (h : DiffOnlyAt k e e1) : DiffOnlyAt k (insA e k1 v) (insA e1 k1 v) := by
  obtain ⟨l1, w, w1, l2, he, he1, hk⟩ := h
  by_cases hm : (findA l1 k1).isSome
  · rw [he, he1, insA_append_of_mem _ _ _ _ hm, insA_append_of_mem _ _ _ _ hm]
    exact ⟨insA l1 k1 v, w, w1, l2, rfl, rfl, insA_keys_preserve l1 k k1 v hk hne⟩
  · have hnone : findA l1 k1 = none := by
      cases hfk : findA l1 k1
      · rfl
      · rw [hfk] at hm; simp at hm
    rw [he, he1, insA_append_of_not_mem _ _ _ _ hnone, insA_append_of_not_mem _ _ _ _ hnone]
    have hred : insA ((k, w) :: l2) k1 v = (k, w) :: insA l2 k1 v := by
      simp [insA, Ne.symm hne]
    have hred1 : insA ((k, w1) :: l2) k1 v = (k, w1) :: insA l2 k1 v := by
      simp [insA, Ne.symm hne]
    rw [hred, hred1]
    exact ⟨l1, w, w1, insA l2 k1 v, rfl, rfl, hk⟩

theorem foldIns_doa (l : List (String × String)) :
    ∀ k e e1, k ∈ l.map Prod.fst → DiffOnlyAt k e e1 → foldIns e l = foldIns e1 l := by
  induction l with
  | nil => intro k e e1 hm _; simp at hm
  | cons kv rest ih =>
    intro k e e1 hm hdoa
    rw [foldIns_cons, foldIns_cons]
    by_cases hh : kv.1 = k
    · subst hh
      rw [doa_insA_eq kv.1 kv.2 e e1 hdoa]
    · have hm2 : k ∈ rest.map Prod.fst := by
        rw [List.map_cons] at hm
        rcases List.mem_cons.mp hm with h2 | h2
        · exact absurd h2.symm hh
        · exact h2
      exact ih k _ _ hm2 (doa_insA_ne k kv.1 kv.2 e e1 hh hdoa)

theorem foldIns_idem (l : List (String × String)) :
    ∀ d, foldIns (foldIns d l) l = foldIns d l := by
  induction l with
  | nil => intro d; rfl
  | cons kv rest ih =>
    intro d
    rw [foldIns_cons, foldIns_cons]
    have hsome : (findA (foldIns (insA d kv.1 kv.2) rest) kv.1).isSome :=
      findA_foldIns_isSome rest _ _ (by simp [findA_insA_self])
    by_cases hm : kv.1 ∈ rest.map Prod.fst
    · obtain ⟨w, hw⟩ := Option.isSome_iff_exists.mp hsome
      obtain ⟨l1, l2, hE, hk⟩ := findA_decomp _ _ _ hw
      have hdoa : DiffOnlyAt kv.1 (insA (foldIns (insA d kv.1 kv.2) rest) kv.1 kv.2)
          (foldIns (insA d kv.1 kv.2) rest) := by
        refine ⟨l1, kv.2, w, l2, ?_, hE, hk⟩
        rw [hE]
        exact insFirst kv.1 kv.2 w l2 l1 hk
      rw [foldIns_doa rest kv.1 _ _ hm hdoa]
      exact ih _
    · have hfind : findA (foldIns (insA d kv.1 kv.2) rest) kv.1 = some kv.2 := by
        rw [findA_foldIns_not_mem rest _ _ hm]
        exact findA_insA_self _ _ _
      rw [insA_of_find_eq _ _ _ hfind]
      exact ih _

/- ---------------- cache and filter theorems ---------------- -/

/-- A generation loop that skips every row returns the accumulator and leaves
the state untouched. -/
theorem genLoop_skip_all (t mt : String) (fl : List String) (rows : List MappingRow)
    (hf : ∀ r ∈ rows, fl.contains r.field1C = false) :
    ∀ ja cnt trk acc s, genLoop t mt (some fl) rows ja cnt trk acc s = (Except.ok acc, s) := by
  induction rows with
  | nil => intro ja cnt trk acc s; rfl
  | cons row rows ih =>
    intro ja cnt trk acc s
    have h1 : fl.contains row.field1C = false := hf row (by simp)
    simp only [genLoop, h1, Bool.not_false, if_true]
    exact ih (fun r hr => hf r (by simp [hr])) ja cnt trk acc s

/-- Claim C3 (amended, positive part): a field-filtered generation never writes
the query cache — the `_queries` dictionary is returned unchanged, for every
mapping, state, table and filter list. -/
theorem filtered_preserves_cache (df : List MappingRow) (s : GenState) (t : String)
    (l : List String) : (generate_query df s t (some l)).2.queries = s.queries := by
  show (generate_query_core df s t (some l)).2.queries = s.queries
  unfold generate_query_core
  cases hft : df.filter (fun r => r.table1C == t) with
  | nil => rfl
  | cons r0 rest =>
    dsimp only
    have hq := genLoop_queries t r0.sqlTable (some l) (r0 :: rest)
        [(r0.sqlTable, ("main"))] 0 [] [] (initTables s t)
    cases hloop : genLoop t r0.sqlTable (some l) (r0 :: rest) [(r0.sqlTable, ("main"))] 0 [] []
        (initTables s t) with
    | mk res s1 =>
      rw [hloop] at hq
      cases res with
      | error e => simpa [initTables_queries] using hq
      | ok parts => simpa [initTables_queries] using hq

/-- Claim C9: for a known logical table and a filter matching none of its
fields, generate_query still returns a string — `SELECT\n    \nFROM <main> main`
plus the JOIN clauses already accumulated for that table — not an absent
result. -/
theorem empty_filter_select (df : List MappingRow) (s : GenState) (t : String)
    (fl : List String) (r0 : MappingRow) (rest : List MappingRow)
    (h0 : df.filter (fun r => r.table1C == t) = r0 :: rest)
    (hf : ∀ r ∈ df.filter (fun r => r.table1C == t), fl.contains r.field1C = false) :
    (generate_query df s t (some fl)).1
      = Except.ok (some (appendJoins (("SELECT\n    \nFROM ") ++ r0.sqlTable ++ (" main"))
          ((findA s.joinInfo t).getD []))) := by
  show (generate_query_core df s t (some fl)).1 = _
  rw [h0] at hf
  unfold generate_query_core
  rw [h0]
  dsimp only
  rw [genLoop_skip_all t r0.sqlTable fl (r0 :: rest) hf [(r0.sqlTable, ("main"))] 0 [] []
      (initTables s t)]
  dsimp only
  rw [initTables_joinInfo_self]
  have hstr : ("SELECT\n    " : String) ++ joinSep (",\n    ") [] ++ ("\nFROM ")
      = ("SELECT\n    \nFROM ") := rfl
  rw [hstr]

/-- Claim C6 (amended): for a logical table unknown to the mapping (and not yet
recorded in the instance state), get_query_aliases raises ValueError, while
get_table_join_info does not raise — it returns the empty dictionary — and
generate_query signals the absent result. -/
theorem metadata_unknown_table (df : List MappingRow) (s : GenState) (t : String)
    (hrows : df.filter (fun r => r.table1C == t) = [])
    (hq : findA s.queries t = none) (ha : findA s.aliases t = none)
    (hj : findA s.joinInfo t = none) :
    (get_query_aliases df s t).1 = Except.error PyErr.valueError ∧
    (get_table_join_info df s t).1 = Except.ok [] ∧
    (generate_query df s t none).1 = Except.ok none := by
  have hgen : generate_query df s t none = (Except.ok none, s) := by
    unfold generate_query
    rw [hq]
    unfold generate_query_core
    rw [hrows]
  refine ⟨?_, ?_, ?_⟩
  · unfold get_query_aliases
    simp [ha, hgen]
  · unfold get_table_join_info
    simp [hj, hgen]
  · rw [hgen]

/-- Claim C6 witness: the amended behaviour at a concrete unknown table. -/
theorem metadata_unknown_table_witness :
    (get_query_aliases ([] : List MappingRow) initState ("Orders")).1
        = Except.error PyErr.valueError ∧
    (get_table_join_info ([] : List MappingRow) initState ("Orders")).1 = Except.ok [] ∧
    (generate_query ([] : List MappingRow) initState ("Orders") none).1 = Except.ok none :=
  metadata_unknown_table [] initState ("Orders") rfl rfl rfl rfl

/-- Claim C9 witness: the one-row Orders mapping with the disjoint filter
`["Nope"]` produces the column-less SELECT. -/
theorem empty_filter_select_witness :
    (generate_query dfC2 initState ("Orders") (some [("Nope")])).1
      = Except.ok (some (appendJoins (("SELECT\n    \nFROM ") ++ rowC2.sqlTable ++ (" main"))
          ((findA initState.joinInfo ("Orders")).getD []))) :=
  empty_filter_select dfC2 initState ("Orders") [("Nope")] rowC2 [] rfl (by decide)

/- ---------------- the field classifier ---------------- -/

/-- Claim C5 (amended): the classifier is a pure function of the type tag; an
absent tag yields regular with no suffix; a present tag — including the empty
one — is classified by its leading dotted segment, with every unrecognised
segment (the empty one included) falling to the reference/description
default. -/
theorem field_classifier_cases (sg : String) :
    get_field_type_info none = (("regular"), ("")) ∧
    (headSegment sg = ("Справочник") →
      get_field_type_info (some sg) = (("reference"), ("_Description"))) ∧
    (headSegment sg = ("Документ") →
      get_field_type_info (some sg) = (("document"), ("_Number"))) ∧
    (headSegment sg = ("Перечисление") →
      get_field_type_info (some sg) = (("enum"), ("_EnumOrder"))) ∧
    (headSegment sg ≠ ("Справочник") → headSegment sg ≠ ("Документ") →
      headSegment sg ≠ ("Перечисление") →
      get_field_type_info (some sg) = (("reference"), ("_Description"))) := by
  refine ⟨rfl, ?_, ?_, ?_, ?_⟩
  · intro h
    simp [get_field_type_info, h]
  · intro h
    simp [get_field_type_info, h]
  · intro h
    simp [get_field_type_info, h]
  · intro h1 h2 h3
    simp [get_field_type_info, h1, h2, h3]

/-- Claim C5 witness: the classifier evaluated on concrete tags through the
case theorem. -/
theorem field_classifier_cases_witness :
    get_field_type_info none = (("regular"), ("")) ∧
    get_field_type_info (some ("Документ.Заказ")) = (("document"), ("_Number")) ∧
    get_field_type_info (some ("Справочник.Номенклатура"))
      = (("reference"), ("_Description")) :=
  ⟨(field_classifier_cases ("Документ.Заказ")).1,
   (field_classifier_cases ("Документ.Заказ")).2.2.1 (by decide),
   (field_classifier_cases ("Справочник.Номенклатура")).2.1 (by decide)⟩

/- ---------------- the renamer frame property ---------------- -/

/-- Claim C7: the renamer's line loop preserves the number and order of lines,
and every line outside the SELECT column list — every SELECT/FROM/WHERE/...
keyword line, every line after the column list (JOIN conditions included), and
every line processed with the section flag off — is emitted exactly unchanged.
In particular a rename-map key equal to a physical column name occurring only
inside a JOIN condition cannot change that JOIN line. -/
theorem rename_frame (m : SDict) (ls : List String) :
    ∀ b rs, renameLines m ls b = Except.ok rs →
      rs.length = ls.length ∧
      ∀ i, inBodyAt ls b i = false → rs.getD i ("") = ls.getD i ("") := by
  induction ls with
  | nil =>
    intro b rs h
    simp only [renameLines] at h
    injection h with h
    subst h
    exact ⟨rfl, fun i _ => rfl⟩
  | cons l ls ih =>
    intro b rs h
    rw [renameLines] at h
    by_cases hsel : lineIsSelect l
    · rw [if_pos hsel] at h
      cases hrec : renameLines m ls true with
      | error e => rw [hrec] at h; cases h
      | ok r =>
        rw [hrec] at h
        injection h with h
        subst h
        obtain ⟨hlen, hfr⟩ := ih true r hrec
        refine ⟨by simp [hlen], ?_⟩
        intro i hib
        cases i with
        | zero => rfl
        | succ n =>
          have hns : nextInSel b l = true := by simp [nextInSel, hsel]
          have hib2 : inBodyAt ls true n = false := by
            rw [inBodyAt, hns] at hib
            exact hib
          simpa using hfr n hib2
    · rw [if_neg hsel] at h
      by_cases hexit : lineIsExit l
      · rw [if_pos hexit] at h
        cases hrec : renameLines m ls false with
        | error e => rw [hrec] at h; cases h
        | ok r =>
          rw [hrec] at h
          injection h with h
          subst h
          obtain ⟨hlen, hfr⟩ := ih false r hrec
          refine ⟨by simp [hlen], ?_⟩
          intro i hib
          cases i with
          | zero => rfl
          | succ n =>
            have hns : nextInSel b l = false := by simp [nextInSel, hsel, hexit]
            have hib2 : inBodyAt ls false n = false := by
              rw [inBodyAt, hns] at hib
              exact hib
            simpa using hfr n hib2
      · rw [if_neg hexit] at h
        cases b with
        | false =>
          simp only [Bool.not_false, if_true] at h
          cases hrec : renameLines m ls false with
          | error e => rw [hrec] at h; cases h
          | ok r =>
            rw [hrec] at h
            injection h with h
            subst h
            obtain ⟨hlen, hfr⟩ := ih false r hrec
            refine ⟨by simp [hlen], ?_⟩
            intro i hib
            cases i with
            | zero => rfl
            | succ n =>
              have hns : nextInSel false l = false := by simp [nextInSel, hsel, hexit]
              have hib2 : inBodyAt ls false n = false := by
                rw [inBodyAt, hns] at hib
                exact hib
              simpa using hfr n hib2
        | true =>
          simp only [Bool.not_true, if_false] at h
          cases hline : renameSelectLine m l with
          | error e => rw [hline] at h; cases h
          | ok l1 =>
            rw [hline] at h
            cases hrec : renameLines m ls true with
            | error e => rw [hrec] at h; cases h
            | ok r =>
              rw [hrec] at h
              injection h with h
              subst h
              obtain ⟨hlen, hfr⟩ := ih true r hrec
              refine ⟨by simp [hlen], ?_⟩
              intro i hib
              cases i with
              | zero =>
                rw [inBodyAt] at hib
                simp [hsel, hexit] at hib
              | succ n =>
                have hns : nextInSel true l = true := by simp [nextInSel, hsel, hexit]
                have hib2 : inBodyAt ls true n = false := by
                  rw [inBodyAt, hns] at hib
                  exact hib
                simpa using hfr n hib2

/-- Claim C7 witness: a concrete query whose JOIN condition mentions the
rename-map key `CustRef`; every line outside the column list — the JOIN line
included — comes back unchanged. -/
theorem rename_frame_witness :
    wls.length = wls.length ∧
    ∀ i, inBodyAt wls false i = false → wls.getD i ("") = wls.getD i ("") := by
  have h := rename_frame wm wls false wls rfl
  exact h

/- ---------------- determinism machinery ---------------- -/

/-- Evaluation of `generate_query_core` when the loop errors. -/
theorem gen_core_err (df : List MappingRow) (s : GenState) (t : String)
    (ia : Option (List String)) (r0 : MappingRow) (rest : List MappingRow)
    (hft : df.filter (fun r => r.table1C == t) = r0 :: rest)
    (e : PyErr) (s1 : GenState)
    (hrun : genLoop t r0.sqlTable ia (r0 :: rest) [(r0.sqlTable, ("main"))] 0 [] []
        (initTables s t) = (Except.error e, s1)) :
    generate_query_core df s t ia = (Except.error e, s1) := by
  unfold generate_query_core
  rw [hft]
  dsimp only
  rw [hrun]

/-- Evaluation of `generate_query_core` when the loop succeeds. -/
theorem gen_core_ok (df : List MappingRow) (s : GenState) (t : String)
    (ia : Option (List String)) (r0 : MappingRow) (rest : List MappingRow)
    (hft : df.filter (fun r => r.table1C == t) = r0 :: rest)
    (parts : List String) (s1 : GenState) (d : SDict)
    (hrun : genLoop t r0.sqlTable ia (r0 :: rest) [(r0.sqlTable, ("main"))] 0 [] []
        (initTables s t) = (Except.ok parts, s1))
    (hd : findA s1.joinInfo t = some d) :
    generate_query_core df s t ia =
      (match ia with
       | none =>
         (Except.ok (some (appendJoins (("SELECT\n    ") ++ joinSep (",\n    ") parts
             ++ ("\nFROM ") ++ r0.sqlTable ++ (" main")) d)),
          { s1 with queries := insA s1.queries t (appendJoins
              (("SELECT\n    ") ++ joinSep (",\n    ") parts
                ++ ("\nFROM ") ++ r0.sqlTable ++ (" main")) d) })
       | some _ =>
         (Except.ok (some (appendJoins (("SELECT\n    ") ++ joinSep (",\n    ") parts
             ++ ("\nFROM ") ++ r0.sqlTable ++ (" main")) d)), s1)) := by
  unfold generate_query_core
  rw [hft]
  dsimp only
  rw [hrun]
  dsimp only
  rw [hd]
  cases ia <;> rfl

/-- A generation call for one logical table leaves the cache entry and the
JOIN store of every other logical table untouched. -/
theorem gen_frame (df : List MappingRow) (u : String) (fu : Option (List String)) (t : String)
    (hut : u ≠ t) (s : GenState) :
    findA (generate_query df s u fu).2.queries t = findA s.queries t ∧
    findA (generate_query df s u fu).2.joinInfo t = findA s.joinInfo t := by
  have hcore : ∀ ia, findA (generate_query_core df s u ia).2.queries t = findA s.queries t ∧
      findA (generate_query_core df s u ia).2.joinInfo t = findA s.joinInfo t := by
    intro ia
    unfold generate_query_core
    cases hft : df.filter (fun r => r.table1C == u) with
    | nil => exact ⟨rfl, rfl⟩
    | cons r0 rest =>
      dsimp only
      cases hrun : genLoop u r0.sqlTable ia (r0 :: rest) [(r0.sqlTable, ("main"))] 0 [] []
          (initTables s u) with
      | mk res s1 =>
        have hq1 : s1.queries = s.queries := by
          have hgl := genLoop_queries u r0.sqlTable ia (r0 :: rest)
              [(r0.sqlTable, ("main"))] 0 [] [] (initTables s u)
          rw [hrun] at hgl
          rw [hgl, initTables_queries]
        have hj1 : findA s1.joinInfo t = findA s.joinInfo t := by
          have hgl := genLoop_joinInfo_frame u r0.sqlTable ia t hut (r0 :: rest)
              [(r0.sqlTable, ("main"))] 0 [] [] (initTables s u)
          rw [hrun] at hgl
          rw [hgl, initTables_joinInfo_ne s u t hut]
        cases res with
        | error e => exact ⟨by rw [hq1], hj1⟩
        | ok parts =>
          cases ia with
          | none =>
            constructor
            · dsimp only
              rw [findA_insA_ne _ _ _ _ hut, hq1]
            · dsimp only
              exact hj1
          | some l => exact ⟨by rw [hq1], hj1⟩
  unfold generate_query
  cases fu with
  | some l => exact hcore (some l)
  | none =>
    cases hcq : findA s.queries u with
    | some q => exact ⟨rfl, rfl⟩
    | none => exact hcore none

/-- A sequence of generation calls that never names `t` preserves `t`'s cache
entry and JOIN store. -/
theorem runCalls_frame (df : List MappingRow) (calls : List (String × Option (List String)))
    (t : String) (h : ∀ c ∈ calls, c.1 ≠ t) :
    ∀ s : GenState, findA (runCalls df calls s).queries t = findA s.queries t ∧
      findA (runCalls df calls s).joinInfo t = findA s.joinInfo t := by
  induction calls with
  | nil => intro s; exact ⟨rfl, rfl⟩
  | cons c cs ih =>
    intro s
    have hc : c.1 ≠ t := h c (by simp)
    have hstep := gen_frame df c.1 c.2 t hc s
    have hrest := ih (fun c2 hc2 => h c2 (by simp [hc2])) ((generate_query df s c.1 c.2).2)
    have hrc : runCalls df (c :: cs) s
        = runCalls df cs ((generate_query df s c.1 c.2).2) := rfl
    rw [hrc]
    exact ⟨by rw [hrest.1, hstep.1], by rw [hrest.2, hstep.2]⟩

/-- Replaying a generation call from any state whose cache entry and JOIN
store for `t` agree with the post-state of the same call yields the same
result text. -/
theorem gen_replay (df : List MappingRow) (t : String) (f : Option (List String))
    (s s2 : GenState)
    (hq : findA s2.queries t = findA (generate_query df s t f).2.queries t)
    (hj : findA s2.joinInfo t = findA (generate_query df s t f).2.joinInfo t) :
    (generate_query df s2 t f).1 = (generate_query df s t f).1 := by
  cases f with
  | none =>
    cases hc : findA s.queries t with
    | some q =>
      have hgen : generate_query df s t none = (Except.ok (some q), s) := by
        unfold generate_query
        rw [hc]
      rw [hgen] at hq
      dsimp only at hq
      rw [hc] at hq
      rw [hgen]
      unfold generate_query
      rw [hq]
    | none =>
      have hgen : generate_query df s t none = generate_query_core df s t none := by
        unfold generate_query
        rw [hc]
      cases hft : df.filter (fun r => r.table1C == t) with
      | nil =>
        have hcore : generate_query_core df s t none = (Except.ok none, s) := by
          unfold generate_query_core
          rw [hft]
        rw [hgen, hcore] at hq
        dsimp only at hq
        rw [hc] at hq
        rw [hgen, hcore]
        unfold generate_query
        rw [hq]
        unfold generate_query_core
        rw [hft]
      | cons r0 rest =>
        cases hrun : genLoop t r0.sqlTable none (r0 :: rest) [(r0.sqlTable, ("main"))] 0 [] []
            (initTables s t) with
        | mk res s1 =>
          have hq1 : s1.queries = s.queries := by
            have hgl := genLoop_queries t r0.sqlTable none (r0 :: rest)
                [(r0.sqlTable, ("main"))] 0 [] [] (initTables s t)
            rw [hrun] at hgl
            rw [hgl, initTables_queries]
          cases res with
          | error e =>
            have hcore := gen_core_err df s t none r0 rest hft e s1 hrun
            rw [hgen, hcore] at hq
            dsimp only at hq
            rw [hq1, hc] at hq
            rw [hgen, hcore]
            unfold generate_query
            rw [hq]
            cases hrun2 : genLoop t r0.sqlTable none (r0 :: rest) [(r0.sqlTable, ("main"))] 0 [] []
                (initTables s2 t) with
            | mk res2 s2x =>
              have hpure := genLoop_pure t r0.sqlTable none (r0 :: rest)
                  [(r0.sqlTable, ("main"))] 0 [] [] (initTables s t) (initTables s2 t)
              rw [hrun, hrun2] at hpure
              dsimp only at hpure
              rw [gen_core_err df s2 t none r0 rest hft e s2x (by rw [hrun2, ← hpure])]
          | ok parts =>
            have hd1 : findA s1.joinInfo t
                = some (foldIns ((findA s.joinInfo t).getD [])
                    (insSeq r0.sqlTable none (r0 :: rest) [(r0.sqlTable, ("main"))] 0 [])) := by
              have hfold := genLoop_joinInfo_fold t r0.sqlTable none (r0 :: rest)
                  [(r0.sqlTable, ("main"))] 0 [] [] (initTables s t)
                  ((findA s.joinInfo t).getD []) (initTables_joinInfo_self s t)
              rw [hrun] at hfold
              exact hfold
            have hcore := gen_core_ok df s t none r0 rest hft parts s1
                (foldIns ((findA s.joinInfo t).getD [])
                  (insSeq r0.sqlTable none (r0 :: rest) [(r0.sqlTable, ("main"))] 0 []))
                hrun hd1
            rw [hgen, hcore] at hq
            dsimp only at hq
            rw [findA_insA_self] at hq
            rw [hgen, hcore]
            dsimp only
            unfold generate_query
            rw [hq]
  | some l =>
    have hgen : generate_query df s t (some l) = generate_query_core df s t (some l) := rfl
    have hgen2 : generate_query df s2 t (some l) = generate_query_core df s2 t (some l) := rfl
    rw [hgen] at hq hj
    rw [hgen, hgen2]
    cases hft : df.filter (fun r => r.table1C == t) with
    | nil =>
      unfold generate_query_core
      rw [hft]
    | cons r0 rest =>
      cases hrun : genLoop t r0.sqlTable (some l) (r0 :: rest) [(r0.sqlTable, ("main"))] 0 [] []
          (initTables s t) with
      | mk res s1 =>
        cases hrun2 : genLoop t r0.sqlTable (some l) (r0 :: rest) [(r0.sqlTable, ("main"))] 0 [] []
            (initTables s2 t) with
        | mk res2 s2x =>
          have hpure := genLoop_pure t r0.sqlTable (some l) (r0 :: rest)
              [(r0.sqlTable, ("main"))] 0 [] [] (initTables s t) (initTables s2 t)
          rw [hrun, hrun2] at hpure
          dsimp only at hpure
          cases res with
          | error e =>
            rw [gen_core_err df s t (some l) r0 rest hft e s1 hrun,
              gen_core_err df s2 t (some l) r0 rest hft e s2x (by rw [hrun2, ← hpure])]
          | ok parts =>
            have hd1 : findA s1.joinInfo t
                = some (foldIns ((findA s.joinInfo t).getD [])
                    (insSeq r0.sqlTable (some l) (r0 :: rest) [(r0.sqlTable, ("main"))] 0 [])) := by
              have hfold := genLoop_joinInfo_fold t r0.sqlTable (some l) (r0 :: rest)
                  [(r0.sqlTable, ("main"))] 0 [] [] (initTables s t)
                  ((findA s.joinInfo t).getD []) (initTables_joinInfo_self s t)
              rw [hrun] at hfold
              exact hfold
            have hcore := gen_core_ok df s t (some l) r0 rest hft parts s1
                (foldIns ((findA s.joinInfo t).getD [])
                  (insSeq r0.sqlTable (some l) (r0 :: rest) [(r0.sqlTable, ("main"))] 0 []))
                hrun hd1
            rw [hcore] at hj
            dsimp only at hj
            rw [hd1] at hj
            have hd2 : findA s2x.joinInfo t
                = some (foldIns ((findA s.joinInfo t).getD [])
                    (insSeq r0.sqlTable (some l) (r0 :: rest) [(r0.sqlTable, ("main"))] 0 [])) := by
              have hfold2 := genLoop_joinInfo_fold t r0.sqlTable (some l) (r0 :: rest)
                  [(r0.sqlTable, ("main"))] 0 [] [] (initTables s2 t)
                  ((findA s2.joinInfo t).getD []) (initTables_joinInfo_self s2 t)
              rw [hrun2] at hfold2
              rw [hj] at hfold2
              simpa [foldIns_idem] using hfold2
            have hcore2 := gen_core_ok df s2 t (some l) r0 rest hft parts s2x
                (foldIns ((findA s.joinInfo t).getD [])
                  (insSeq r0.sqlTable (some l) (r0 :: rest) [(r0.sqlTable, ("main"))] 0 []))
                (by rw [hrun2, ← hpure]) hd2
            rw [hcore, hcore2]

/-- Claim C4 (amended): two generate_query calls with the same logical table
and the same (possibly absent) field filter yield byte-identical SQL provided
no generation call for the same logical table occurs between them — generation
calls for other logical tables may freely intervene. (The original claim,
quantified over arbitrary intervening calls, fails: see the counterexample.) -/
theorem generate_query_det (df : List MappingRow) (s : GenState) (t : String)
    (f : Option (List String)) (calls : List (String × Option (List String)))
    (h : ∀ c ∈ calls, c.1 ≠ t) :
    (generate_query df (runCalls df calls (generate_query df s t f).2) t f).1
      = (generate_query df s t f).1 := by
  have hfr := runCalls_frame df calls t h ((generate_query df s t f).2)
  exact gen_replay df t f s _ hfr.1 hfr.2

/-- Claim C4 witness: the determinism theorem at a concrete mapping, with an
intervening complete generation of the other logical table `U`. -/
theorem generate_query_det_witness :
    (generate_query dfW
        (runCalls dfW [(("U"), none)] (generate_query dfW initState ("Orders") none).2)
        ("Orders") none).1
      = (generate_query dfW initState ("Orders") none).1 :=
  generate_query_det dfW initState ("Orders") none [(("U"), none)] (by decide)
